import Mathlib

/-!
# Verification of the CARLA 2D waypoint-following controller

Shallow embedding of `Course1FinalProject/controller2d.py`.

Conventions:
* Python floats are modelled by `ℝ` (the spec restricts attention to valid,
  finite inputs); `np.fmax`/`np.fmin` become `max`/`min`.
* Python `int` is modelled by `Int`; `int(step / 3)` (true division followed
  by truncation toward zero) is `Int.div step 3`.
* A Python list access `l[i]` (with negative-index wraparound and `IndexError`
  on overflow) is `pyGet l i : Except PyErr _`; code that can raise returns
  `Except PyErr _`, and an `error` result models the exception propagating to
  the caller with the object unchanged (in `update_controls` the only raise
  point precedes every mutation).
* `float("inf")` as the initial minimum distance is `(⊤ : WithTop ℝ)`.
-/

/-- Errors a `Controller2D` operation can raise.  The only exception the
source can produce is a list `IndexError`. -/
inductive PyErr where
  | indexError
deriving DecidableEq

/-- Python list indexing: `l[i]` with negative-index wraparound, raising
`IndexError` when out of range. -/
def pyGet {α : Type} (l : List α) (i : Int) : Except PyErr α :=
  if h : 0 ≤ i ∧ i < (l.length : Int) then
    .ok (l.get ⟨i.toNat, by omega⟩)
  else if h2 : -(l.length : Int) ≤ i ∧ i < 0 then
    .ok (l.get ⟨(i + (l.length : Int)).toNat, by omega⟩)
  else
    .error .indexError

/-- A waypoint `[x, y, target_speed]`. -/
abbrev Waypoint : Type := ℝ × ℝ × ℝ

/-- Modelled from the spec: the source imports `cutils` (not included in the
repository sources).  Per the spec, `cutils.CUtils` is pure storage for the
persistent variables `v_previous`, `v_diff_previous` and `step`; a field is
absent (`none`) until `create_var` initializes it. -/
structure CUtils where
  v_previous : Option ℝ
  v_diff_previous : Option ℝ
  step : Option Int

/-- Modelled from the spec: `create_var(name, default)` performs
create-if-absent initialization and never resets an existing value.  This is
the effect of the three `create_var` calls at the top of `update_controls`
(defaults `0.0`, `0.0`, `0`). -/
def createVars (u : CUtils) : CUtils :=
  { v_previous := some (u.v_previous.getD 0)
    v_diff_previous := some (u.v_diff_previous.getD 0)
    step := some (u.step.getD 0) }

/-- The state of a `Controller2D` instance (field names as in the source). -/
structure Controller2D where
  vars : CUtils
  _current_x : ℝ
  _current_y : ℝ
  _current_yaw : ℝ
  _current_speed : ℝ
  _desired_speed : ℝ
  _current_frame : Int
  _current_timestamp : ℝ
  _start_control_loop : Bool
  _set_throttle : ℝ
  _set_brake : ℝ
  _set_steer : ℝ
  _waypoints : List Waypoint

/-- `self._conv_rad_to_steer = 180.0 / 70.0 / np.pi` (set in `__init__` and
never modified, so modelled as a constant). -/
noncomputable def _conv_rad_to_steer : ℝ := 180.0 / 70.0 / Real.pi

/-- `Controller2D.__init__(waypoints)`. -/
def mkController (waypoints : List Waypoint) : Controller2D :=
  { vars := ⟨none, none, none⟩
    _current_x := 0
    _current_y := 0
    _current_yaw := 0
    _current_speed := 0
    _desired_speed := 0
    _current_frame := 0
    _current_timestamp := 0
    _start_control_loop := false
    _set_throttle := 0
    _set_brake := 0
    _set_steer := 0
    _waypoints := waypoints }

/-- `update_values`: overwrite the vehicle state; `if self._current_frame:`
(integer truthiness) makes the Cold→Warm transition sticky. -/
def update_values (c : Controller2D) (x y yaw speed timestamp : ℝ)
    (frame : Int) : Controller2D :=
  { c with
    _current_x := x
    _current_y := y
    _current_yaw := yaw
    _current_speed := speed
    _current_timestamp := timestamp
    _current_frame := frame
    _start_control_loop := if frame ≠ 0 then true else c._start_control_loop }

/-- `np.linalg.norm` of the 2-vector from the current position to a
waypoint's `(x, y)`. -/
noncomputable def dist_to (x y : ℝ) (w : Waypoint) : ℝ :=
  Real.sqrt ((w.1 - x) ^ 2 + (w.2.1 - y) ^ 2)

/-- The scanning loop of `update_desired_speed`: running index `i`, current
best `(min_idx, min_dist)`, update on strict improvement only. -/
noncomputable def scanMin (x y : ℝ) :
    List Waypoint → Nat → Nat → WithTop ℝ → Nat × WithTop ℝ
  | [], _, min_idx, min_dist => (min_idx, min_dist)
  | w :: ws, i, min_idx, min_dist =>
      if (dist_to x y w : WithTop ℝ) < min_dist then
        scanMin x y ws (i + 1) i (dist_to x y w)
      else
        scanMin x y ws (i + 1) min_idx min_dist

/-- `update_desired_speed`: nearest-waypoint lookup starting from
`min_idx = 0`, `min_dist = float("inf")`; then the two-branch read of the
selected target speed (the else branch reads `self._waypoints[-1]`). -/
noncomputable def update_desired_speed (c : Controller2D) :
    Except PyErr Controller2D :=
  let r := scanMin c._current_x c._current_y c._waypoints 0 0 ⊤
  if (r.1 : Int) < (c._waypoints.length : Int) - 1 then
    match pyGet c._waypoints (r.1 : Int) with
    | .ok w => .ok { c with _desired_speed := w.2.2 }
    | .error e => .error e
  else
    match pyGet c._waypoints (-1 : Int) with
    | .ok w => .ok { c with _desired_speed := w.2.2 }
    | .error e => .error e

/-- `update_waypoints`: wholesale replacement of the path. -/
def update_waypoints (c : Controller2D) (new_waypoints : List Waypoint) :
    Controller2D :=
  { c with _waypoints := new_waypoints }

/-- `get_commands`: `(throttle, steer, brake)`. -/
def get_commands (c : Controller2D) : ℝ × ℝ × ℝ :=
  (c._set_throttle, c._set_steer, c._set_brake)

/-- `set_throttle`: `np.fmax(np.fmin(input_throttle, 1.0), 0.0)`. -/
def set_throttle (c : Controller2D) (input_throttle : ℝ) : Controller2D :=
  { c with _set_throttle := max (min input_throttle 1) 0 }

/-- `set_steer`: convert radians by `_conv_rad_to_steer`, then
`np.fmax(np.fmin(input_steer, 1.0), -1.0)`. -/
noncomputable def set_steer (c : Controller2D) (input_steer_in_rad : ℝ) :
    Controller2D :=
  { c with _set_steer := max (min (_conv_rad_to_steer * input_steer_in_rad) 1) (-1) }

/-- `set_brake`: `np.fmax(np.fmin(input_brake, 1.0), 0.0)`. -/
def set_brake (c : Controller2D) (input_brake : ℝ) : Controller2D :=
  { c with _set_brake := max (min input_brake 1) 0 }

/-- `math.atan2 y x`: the angle of the point `(x, y)`, C convention. -/
noncomputable def atan2 (y x : ℝ) : ℝ :=
  if 0 < x then Real.arctan (y / x)
  else if x < 0 then
    (if 0 ≤ y then Real.arctan (y / x) + Real.pi
     else Real.arctan (y / x) - Real.pi)
  else
    (if 0 < y then Real.pi / 2 else if y < 0 then -(Real.pi / 2) else 0)

/-- The longitudinal (PI plus raw-speed-delta) controller block of
`update_controls`, producing `throttle_output`. -/
noncomputable def longitudinalThrottle (v v_desired v_previous
    v_diff_previous : ℝ) : ℝ :=
  let pGain : ℝ := 0.6
  let iGain : ℝ := 0.01
  let dGain : ℝ := 1
  let _feedForwardGain : ℝ := 0.05
  let normalizeFactor : ℝ := 16.25 / 2 / 5
  let throttle := pGain * (v_desired - v) + dGain * (v - v_previous) +
    iGain * v_diff_previous
  let throttlePercent := throttle / normalizeFactor
  if throttlePercent > 1 then 1
  else if throttlePercent < 0 then 0
  else throttlePercent

/-- The lookahead waypoint selection of the lateral block:
`waypoints[int(step/3)]` when that index is below the last one, else
`waypoints[len(waypoints)-1]`. -/
def lookaheadWaypoint (step : Int) (waypoints : List Waypoint) :
    Except PyErr Waypoint :=
  if Int.tdiv step 3 < (waypoints.length : Int) - 1 then
    pyGet waypoints (Int.tdiv step 3)
  else
    pyGet waypoints ((waypoints.length : Int) - 1)

/-- The pure-pursuit lateral block of `update_controls`, producing
`steer_output` from the pose, the desired speed, the chosen lookahead
waypoint and the persistent `step` counter.  (`rearAxialX/Y` and `ld` are
computed in the source but unused by the emitted steering angle.) -/
noncomputable def lateralSteerOutput (x y yaw v_desired : ℝ) (waypoint : Waypoint)
    (step : Int) : ℝ :=
  let processed_yaw := -yaw - Real.pi / 2
  let processed_yaw := if |processed_yaw| < 0.05 then 0 else processed_yaw
  let _rearAxialX := x - Real.cos processed_yaw * 1.5
  let _rearAxialY := y - Real.sin processed_yaw * 1.5
  let lookAheadX := waypoint.1
  let lookAheadY := waypoint.2.1
  let L : ℝ := 3
  let kdd : ℝ := 0.8
  let _ld := Real.sqrt ((lookAheadX - _rearAxialX) ^ 2 +
    (lookAheadY - _rearAxialY) ^ 2)
  let alpha := atan2 (lookAheadX - x) (lookAheadY - y) - processed_yaw
  let velocity := if v_desired < 10 then 10 else v_desired
  let steer_angle := Real.arctan (2 * L * Real.sin alpha / (kdd * velocity))
  let steer_angle := if step < 100 then 0 else steer_angle
  let steer_angle :=
    if steer_angle > 0.3 then 0.3
    else if steer_angle < -0.3 then -0.3
    else steer_angle
  if |steer_angle| < 0.05 then 0 else steer_angle

/-- The store-old-values epilogue of `update_controls`:
`v_previous ← v`, `v_diff_previous ← v_desired - v + v_diff_previous`,
`step ← step + 1`. -/
def store_old_values (c : Controller2D) (v v_desired : ℝ) : Controller2D :=
  { c with vars :=
    { v_previous := some v
      v_diff_previous := some (v_desired - v + c.vars.v_diff_previous.getD 0)
      step := some (c.vars.step.getD 0 + 1) } }

/-- `update_controls`: read the feedback, recompute the desired speed,
create-if-absent the persistent variables, run the two controller blocks and
the setters only when `_start_control_loop` holds, and always finish with the
store-old-values epilogue. -/
noncomputable def update_controls (c0 : Controller2D) :
    Except PyErr Controller2D :=
  let x := c0._current_x
  let y := c0._current_y
  let yaw := c0._current_yaw
  let v := c0._current_speed
  match update_desired_speed c0 with
  | .error e => .error e
  | .ok c1 =>
    let v_desired := c1._desired_speed
    let _t := c1._current_timestamp
    let waypoints := c1._waypoints
    let c2 := { c1 with vars := createVars c1.vars }
    if c2._start_control_loop then
      let throttle_output := longitudinalThrottle v v_desired
        (c2.vars.v_previous.getD 0) (c2.vars.v_diff_previous.getD 0)
      let brake_output : ℝ := 0
      match lookaheadWaypoint (c2.vars.step.getD 0) waypoints with
      | .error e => .error e
      | .ok waypoint =>
        let steer_output := lateralSteerOutput x y yaw v_desired waypoint
          (c2.vars.step.getD 0)
        let c3 := set_throttle c2 throttle_output
        let c4 := set_steer c3 steer_output
        let c5 := set_brake c4 brake_output
        .ok (store_old_values c5 v v_desired)
    else
      .ok (store_old_values c2 v v_desired)

/-- The persistent step counter as read by the controller blocks
(`create_var` defaults it to `0`). -/
def stepOf (c : Controller2D) : Int := c.vars.step.getD 0

/-- One harness action on the controller. -/
inductive Event where
  | values (x y yaw speed timestamp : ℝ) (frame : Int)
  | waypoints (wps : List Waypoint)
  | controls

/-- Apply one harness action.  A raised exception propagates to the harness
with the controller unchanged (in the source the only raise point precedes
every state mutation). -/
noncomputable def stepEvent (c : Controller2D) : Event → Controller2D
  | .values x y yaw s t f => update_values c x y yaw s t f
  | .waypoints w => update_waypoints c w
  | .controls =>
      match update_controls c with
      | .ok c' => c'
      | .error _ => c

/-- Run a freshly constructed controller through a sequence of harness
actions. -/
noncomputable def runEvents (wps : List Waypoint) (es : List Event) :
    Controller2D :=
  es.foldl stepEvent (mkController wps)

/-- The sequence of `get_commands` outputs observed along an action
sequence (one observation before every action and one at the end). -/
noncomputable def runTrace (c : Controller2D) : List Event → List (ℝ × ℝ × ℝ)
  | [] => [get_commands c]
  | e :: es => get_commands c :: runTrace (stepEvent c e) es

/-- Replace the timestamp fed by a `values` action (other actions carry no
timestamp). -/
def retimeEvent (g : ℝ → ℝ) : Event → Event
  | .values x y yaw s t f => .values x y yaw s (g t) f
  | .waypoints w => .waypoints w
  | .controls => .controls

/-- The frame index an action feeds to the controller (`0` for actions that
feed none). -/
def frameOf : Event → Int
  | .values _ _ _ _ _ f => f
  | .waypoints _ => 0
  | .controls => 0

/-- Overwrite only the stored timestamp. -/
def withTime (t : ℝ) (c : Controller2D) : Controller2D :=
  { c with _current_timestamp := t }

/-- A predicate on the success value of an `Except`, vacuous on errors. -/
def ExceptOkP {ε α : Type} (p : α → Prop) : Except ε α → Prop
  | .ok a => p a
  | .error _ => True

/-- Controller states reachable through the public API from a fresh
instance. -/
inductive Reachable : Controller2D → Prop
  | init (wps : List Waypoint) : Reachable (mkController wps)
  | values {c} (x y yaw s t : ℝ) (f : Int) :
      Reachable c → Reachable (update_values c x y yaw s t f)
  | waypoints {c} (wps : List Waypoint) :
      Reachable c → Reachable (update_waypoints c wps)
  | controls {c c'} :
      Reachable c → update_controls c = .ok c' → Reachable c'

/-- The steering pipeline exactly as claim C5 words it: `processed_yaw`
snapped at `0.05`; `alpha` from `atan2` with the swapped x/y argument order;
`velocity = max v_d 10`; the arctan pure-pursuit formula; force `0` for
`step < 100`; clamp to `[-0.3, 0.3]`; snap to `0` below `0.05`. -/
noncomputable def steer_angle_spec (x y yaw v_d xL yL : ℝ) (step : Int) : ℝ :=
  let processed_yaw := -yaw - Real.pi / 2
  let processed_yaw := if |processed_yaw| < 0.05 then 0 else processed_yaw
  let alpha := atan2 (xL - x) (yL - y) - processed_yaw
  let velocity := max v_d 10
  let steer_angle := Real.arctan (2 * 3 * Real.sin alpha / (0.8 * velocity))
  let steer_angle := if step < 100 then 0 else steer_angle
  let steer_angle := max (-0.3) (min 0.3 steer_angle)
  if |steer_angle| < 0.05 then 0 else steer_angle

/-- The `ControlOutput` range invariant of the spec:
`throttle ∈ [0,1]`, `brake ∈ [0,1]`, `steer ∈ [-1,1]`. -/
def inRange (c : Controller2D) : Prop :=
  0 ≤ c._set_throttle ∧ c._set_throttle ≤ 1 ∧
  0 ≤ c._set_brake ∧ c._set_brake ≤ 1 ∧
  -1 ≤ c._set_steer ∧ c._set_steer ≤ 1

/-! ## Helper lemmas -/

theorem pyGet_nonneg {α : Type} (l : List α) (i : Int) (h0 : 0 ≤ i)
    (h1 : i < (l.length : Int)) :
    pyGet l i = .ok (l.get ⟨i.toNat, by omega⟩) := by
  rw [pyGet, dif_pos ⟨h0, h1⟩]

theorem pyGet_neg_one {α : Type} (l : List α) (h : l ≠ []) :
    pyGet l (-1) = .ok (l.get ⟨l.length - 1,
      Nat.sub_lt (List.length_pos.mpr h) Nat.one_pos⟩) := by
  have hl : 0 < l.length := List.length_pos.mpr h
  rw [pyGet, dif_neg (by omega), dif_pos ⟨by omega, by omega⟩]
  have hidx : ((-1 : Int) + (l.length : Int)).toNat = l.length - 1 := by omega
  exact congrArg Except.ok (congrArg l.get (Fin.ext hidx))

theorem createVars_getD (u : CUtils) :
    (createVars u).v_previous.getD 0 = u.v_previous.getD 0 ∧
    (createVars u).v_diff_previous.getD 0 = u.v_diff_previous.getD 0 ∧
    (createVars u).step.getD 0 = u.step.getD 0 := by
  refine ⟨rfl, rfl, rfl⟩

theorem update_desired_speed_shape {c c1 : Controller2D}
    (h : update_desired_speed c = .ok c1) :
    ∃ d, c1 = { c with _desired_speed := d } := by
  rw [update_desired_speed] at h
  split at h <;> split at h <;> simp_all <;> exact ⟨_, h.symm⟩

theorem update_desired_speed_ok_of_ne {c : Controller2D}
    (h : c._waypoints ≠ []) :
    ∃ d, update_desired_speed c = .ok { c with _desired_speed := d } := by
  rw [update_desired_speed]
  by_cases hlt : ((scanMin c._current_x c._current_y c._waypoints 0 0 ⊤).1 : Int)
      < (c._waypoints.length : Int) - 1
  · rw [if_pos hlt, pyGet_nonneg _ _ (by omega) (by omega)]
    exact ⟨_, rfl⟩
  · rw [if_neg hlt, pyGet_neg_one _ h]
    exact ⟨_, rfl⟩

theorem update_desired_speed_empty {c : Controller2D}
    (h : c._waypoints = []) :
    update_desired_speed c = .error .indexError := by
  rw [update_desired_speed]
  simp [h, scanMin, pyGet]

theorem update_controls_of_uds_error {c : Controller2D} {e : PyErr}
    (h : update_desired_speed c = .error e) :
    update_controls c = .error e := by
  rw [update_controls, h]

theorem update_controls_cold {c c1 : Controller2D}
    (hs : c._start_control_loop = false)
    (h : update_desired_speed c = .ok c1) :
    update_controls c = .ok (store_old_values
      { c1 with vars := createVars c1.vars }
      c._current_speed c1._desired_speed) := by
  obtain ⟨d, rfl⟩ := update_desired_speed_shape h
  rw [update_controls, h]
  simp [hs]

theorem update_controls_warm {c c1 : Controller2D} {wp : Waypoint}
    (hs : c._start_control_loop = true)
    (h : update_desired_speed c = .ok c1)
    (hwp : lookaheadWaypoint (stepOf c) c1._waypoints = .ok wp) :
    update_controls c = .ok (store_old_values
      (set_brake
        (set_steer
          (set_throttle { c1 with vars := createVars c1.vars }
            (longitudinalThrottle c._current_speed c1._desired_speed
              (c.vars.v_previous.getD 0) (c.vars.v_diff_previous.getD 0)))
          (lateralSteerOutput c._current_x c._current_y c._current_yaw
            c1._desired_speed wp (stepOf c)))
        0)
      c._current_speed c1._desired_speed) := by
  obtain ⟨d, rfl⟩ := update_desired_speed_shape h
  rw [update_controls, h]
  simp only [createVars, Option.getD_some, stepOf] at hwp ⊢
  simp [hs, hwp]

theorem update_controls_warm_error {c c1 : Controller2D} {e : PyErr}
    (hs : c._start_control_loop = true)
    (h : update_desired_speed c = .ok c1)
    (hwp : lookaheadWaypoint (stepOf c) c1._waypoints = .error e) :
    update_controls c = .error e := by
  obtain ⟨d, rfl⟩ := update_desired_speed_shape h
  rw [update_controls, h]
  simp only [createVars, Option.getD_some, stepOf] at hwp ⊢
  simp [hs, hwp]

theorem ite_clamp01 (x : ℝ) :
    max (min (if x > 1 then (1 : ℝ) else if x < 0 then 0 else x) 1) 0
      = max 0 (min x 1) := by
  split_ifs with h1 h2 <;>
    simp [max_def, min_def] <;> split_ifs <;> linarith

theorem ite_clamp_steer (s : ℝ) :
    (if s > 0.3 then (0.3 : ℝ) else if s < -0.3 then -0.3 else s)
      = max (-0.3) (min 0.3 s) := by
  split_ifs with h1 h2 <;>
    simp [max_def, min_def] <;> split_ifs <;> linarith

theorem ite_velocity (v : ℝ) :
    (if v < 10 then (10 : ℝ) else v) = max v 10 := by
  split_ifs with h <;> simp [max_def] <;> split_ifs <;> linarith

theorem lateral_eq_spec (x y yaw v_desired : ℝ) (wp : Waypoint) (step : Int) :
    lateralSteerOutput x y yaw v_desired wp step
      = steer_angle_spec x y yaw v_desired wp.1 wp.2.1 step := by
  rw [lateralSteerOutput, steer_angle_spec]
  simp only [ite_velocity, ite_clamp_steer]

theorem lateral_bounded (x y yaw v_desired : ℝ) (wp : Waypoint) (step : Int) :
    |lateralSteerOutput x y yaw v_desired wp step| ≤ 0.3 := by
  simp only [lateralSteerOutput]
  split_ifs <;> rw [abs_le] <;> constructor <;> linarith

theorem lookaheadWaypoint_eq (waypoints : List Waypoint) (step : Int)
    (h1 : waypoints ≠ []) (h2 : 0 ≤ step) :
    lookaheadWaypoint step waypoints
      = .ok (waypoints.get ⟨min (step.toNat / 3) (waypoints.length - 1),
          Nat.lt_of_le_of_lt (Nat.min_le_right _ _)
            (Nat.sub_lt (List.length_pos.mpr h1) Nat.one_pos)⟩) := by
  have hlen : 0 < waypoints.length := List.length_pos.mpr h1
  have htd : Int.tdiv step 3 = ((step.toNat / 3 : Nat) : Int) := by
    obtain ⟨s, rfl⟩ := Int.eq_ofNat_of_zero_le h2
    rfl
  rw [lookaheadWaypoint, htd]
  by_cases hlt : ((step.toNat / 3 : Nat) : Int) < (waypoints.length : Int) - 1
  · rw [if_pos hlt, pyGet_nonneg _ _ (by omega) (by omega)]
    have hidx : (((step.toNat / 3 : Nat) : Int)).toNat
        = min (step.toNat / 3) (waypoints.length - 1) := by omega
    exact congrArg Except.ok (congrArg waypoints.get (Fin.ext hidx))
  · rw [if_neg hlt, pyGet_nonneg _ _ (by omega) (by omega)]
    have hidx : ((waypoints.length : Int) - 1).toNat
        = min (step.toNat / 3) (waypoints.length - 1) := by omega
    exact congrArg Except.ok (congrArg waypoints.get (Fin.ext hidx))

theorem scanMin_go (x y : ℝ) (ws : List Waypoint) :
    ∀ (i mi : Nat) (md : WithTop ℝ),
      (scanMin x y ws i mi md).2 ≤ md ∧
      (∀ j (hj : j < ws.length),
        (scanMin x y ws i mi md).2 ≤ (dist_to x y (ws.get ⟨j, hj⟩) : WithTop ℝ)) ∧
      ((scanMin x y ws i mi md = (mi, md) ∧
          ∀ j (hj : j < ws.length),
            ¬ ((dist_to x y (ws.get ⟨j, hj⟩) : WithTop ℝ) < md)) ∨
        ∃ j, ∃ hj : j < ws.length,
          (scanMin x y ws i mi md).1 = i + j ∧
          (scanMin x y ws i mi md).2 = (dist_to x y (ws.get ⟨j, hj⟩) : WithTop ℝ) ∧
          (dist_to x y (ws.get ⟨j, hj⟩) : WithTop ℝ) < md ∧
          ∀ k (hk : k < j),
            (dist_to x y (ws.get ⟨j, hj⟩) : WithTop ℝ)
              < (dist_to x y (ws.get ⟨k, Nat.lt_trans hk hj⟩) : WithTop ℝ)) := by
  induction ws with
  | nil =>
    intro i mi md
    refine ⟨le_refl _, ?_, Or.inl ⟨rfl, ?_⟩⟩ <;>
      intro j hj <;> exact absurd hj (Nat.not_lt_zero j)
  | cons w ws ih =>
    intro i mi md
    simp only [scanMin]
    by_cases hlt : (dist_to x y w : WithTop ℝ) < md
    · rw [if_pos hlt]
      obtain ⟨ih1, ih2, ih3⟩ := ih (i + 1) i (dist_to x y w)
      refine ⟨le_trans ih1 (le_of_lt hlt), ?_, ?_⟩
      · intro j hj
        cases j with
        | zero => exact ih1
        | succ j => exact ih2 j (Nat.lt_of_succ_lt_succ hj)
      · rcases ih3 with ⟨hres, _⟩ | ⟨j, hj, h1, h2, h3, h4⟩
        · refine Or.inr ⟨0, Nat.succ_pos _, ?_, ?_, ?_, ?_⟩
          · simp [hres]
          · simp [hres]
          · exact hlt
          · exact fun k hk => absurd hk (Nat.not_lt_zero k)
        · refine Or.inr ⟨j + 1, Nat.succ_lt_succ hj, ?_, ?_, ?_, ?_⟩
          · rw [h1]; omega
          · exact h2
          · exact lt_trans h3 hlt
          · intro k hk
            cases k with
            | zero => exact h3
            | succ k => exact h4 k (Nat.lt_of_succ_lt_succ hk)
    · rw [if_neg hlt]
      obtain ⟨ih1, ih2, ih3⟩ := ih (i + 1) mi md
      have hge : md ≤ (dist_to x y w : WithTop ℝ) := not_lt.mp hlt
      refine ⟨ih1, ?_, ?_⟩
      · intro j hj
        cases j with
        | zero => exact le_trans ih1 hge
        | succ j => exact ih2 j (Nat.lt_of_succ_lt_succ hj)
      · rcases ih3 with ⟨hres, hall⟩ | ⟨j, hj, h1, h2, h3, h4⟩
        · refine Or.inl ⟨hres, ?_⟩
          intro j hj
          cases j with
          | zero => exact hlt
          | succ j => exact hall j (Nat.lt_of_succ_lt_succ hj)
        · refine Or.inr ⟨j + 1, Nat.succ_lt_succ hj, ?_, ?_, ?_, ?_⟩
          · rw [h1]; omega
          · exact h2
          · exact h3
          · intro k hk
            cases k with
            | zero => exact lt_of_lt_of_le h3 hge
            | succ k => exact h4 k (Nat.lt_of_succ_lt_succ hk)

theorem update_desired_speed_nearest {c : Controller2D}
    (h : c._waypoints ≠ []) :
    ∃ m, ∃ hm : m < c._waypoints.length,
      (∀ j (hj : j < c._waypoints.length),
        dist_to c._current_x c._current_y (c._waypoints.get ⟨m, hm⟩)
          ≤ dist_to c._current_x c._current_y (c._waypoints.get ⟨j, hj⟩)) ∧
      (∀ j (hj : j < m),
        dist_to c._current_x c._current_y (c._waypoints.get ⟨m, hm⟩)
          < dist_to c._current_x c._current_y
              (c._waypoints.get ⟨j, Nat.lt_trans hj hm⟩)) ∧
      update_desired_speed c
        = .ok { c with _desired_speed := (c._waypoints.get ⟨m, hm⟩).2.2 } := by
  have hlen : 0 < c._waypoints.length := List.length_pos.mpr h
  obtain ⟨g1, g2, g3⟩ :=
    scanMin_go c._current_x c._current_y c._waypoints 0 0 ⊤
  rcases g3 with ⟨_, hall⟩ | ⟨j, hj, h1, h2, h3, h4⟩
  · exact absurd (WithTop.coe_lt_top _) (hall 0 hlen)
  · have h1' : (scanMin c._current_x c._current_y c._waypoints 0 0 ⊤).1 = j := by
      rw [h1]; omega
    refine ⟨j, hj, ?_, ?_, ?_⟩
    · intro k hk
      have := g2 k hk
      rw [h2] at this
      exact_mod_cast this
    · intro k hk
      exact_mod_cast h4 k hk
    · rw [update_desired_speed]
      simp only [h1']
      by_cases hbr : ((j : Int)) < (c._waypoints.length : Int) - 1
      · rw [if_pos hbr, pyGet_nonneg _ _ (by omega) (by omega)]
        have hidx : ((j : Int)).toNat = j := by omega
        exact congrArg Except.ok
          (congrArg (fun w : Waypoint => { c with _desired_speed := w.2.2 })
            (congrArg c._waypoints.get (Fin.ext hidx)))
      · rw [if_neg hbr, pyGet_neg_one _ h]
        have hidx : c._waypoints.length - 1 = j := by omega
        exact congrArg Except.ok
          (congrArg (fun w : Waypoint => { c with _desired_speed := w.2.2 })
            (congrArg c._waypoints.get (Fin.ext hidx)))

theorem cold_step {c c' : Controller2D} (hs : c._start_control_loop = false)
    (h : update_controls c = .ok c') :
    c'._start_control_loop = false ∧ get_commands c' = get_commands c ∧
    c'._waypoints = c._waypoints ∧ stepOf c' = stepOf c + 1 := by
  cases huds : update_desired_speed c with
  | error e =>
      rw [update_controls_of_uds_error huds] at h
      exact absurd h (by simp)
  | ok c1 =>
      obtain ⟨d, rfl⟩ := update_desired_speed_shape huds
      rw [update_controls_cold hs huds] at h
      injection h with h
      subst h
      refine ⟨hs, rfl, rfl, ?_⟩
      simp [store_old_values, stepOf, createVars]

theorem cold_run (es : List Event) :
    ∀ c : Controller2D, (∀ e ∈ es, frameOf e = 0) →
      c._start_control_loop = false →
      (es.foldl stepEvent c)._start_control_loop = false ∧
      get_commands (es.foldl stepEvent c) = get_commands c := by
  induction es with
  | nil => intro c _ hs; exact ⟨hs, rfl⟩
  | cons e es ih =>
      intro c hall hs
      have he : frameOf e = 0 := hall e (List.mem_cons_self e es)
      have hrest : ∀ e' ∈ es, frameOf e' = 0 :=
        fun e' h' => hall e' (List.mem_cons_of_mem e h')
      rw [List.foldl_cons]
      have hstep : (stepEvent c e)._start_control_loop = false ∧
          get_commands (stepEvent c e) = get_commands c := by
        cases e with
        | values x y yaw s t f =>
            simp only [frameOf] at he
            subst he
            simp [stepEvent, update_values, get_commands, hs]
        | waypoints w =>
            simp [stepEvent, update_waypoints, get_commands, hs]
        | controls =>
            dsimp [stepEvent]
            cases huc : update_controls c with
            | error e => exact ⟨hs, rfl⟩
            | ok c' =>
                obtain ⟨a, b, _, _⟩ := cold_step hs huc
                exact ⟨a, b⟩
      obtain ⟨h1, h2⟩ := ih (stepEvent c e) hrest hstep.1
      exact ⟨h1, h2.trans hstep.2⟩

theorem cold_controls_count (n : Nat) :
    ∀ c : Controller2D, c._start_control_loop = false → c._waypoints ≠ [] →
      stepOf (List.foldl stepEvent c (List.replicate n .controls))
        = stepOf c + n := by
  induction n with
  | zero => intro c _ _; simp
  | succ n ih =>
      intro c hs hw
      rw [List.replicate_succ, List.foldl_cons]
      obtain ⟨d, huds⟩ := update_desired_speed_ok_of_ne hw
      have huc := update_controls_cold hs huds
      have hstep : stepEvent c .controls
          = store_old_values
              { { c with _desired_speed := d } with
                vars := createVars { c with _desired_speed := d }.vars }
              c._current_speed
              ({ c with _desired_speed := d })._desired_speed := by
        dsimp [stepEvent]
        rw [huc]
      rw [hstep]
      rw [ih _ (by exact hs) (by exact hw)]
      have : stepOf (store_old_values
          { { c with _desired_speed := d } with
            vars := createVars { c with _desired_speed := d }.vars }
          c._current_speed
          ({ c with _desired_speed := d })._desired_speed) = stepOf c + 1 := by
        simp [store_old_values, stepOf, createVars]
      rw [this]
      omega

theorem uds_withTime (c : Controller2D) (t : ℝ) :
    update_desired_speed (withTime t c)
      = (update_desired_speed c).map (withTime t) := by
  rw [update_desired_speed, update_desired_speed]
  simp only [withTime]
  by_cases hbr : ((scanMin c._current_x c._current_y c._waypoints 0 0 ⊤).1 : Int)
      < (c._waypoints.length : Int) - 1
  · rw [if_pos hbr, if_pos hbr]
    cases hpg : pyGet c._waypoints
        ((scanMin c._current_x c._current_y c._waypoints 0 0 ⊤).1 : Int) <;>
      simp [hpg, Except.map, withTime]
  · rw [if_neg hbr, if_neg hbr]
    cases hpg : pyGet c._waypoints (-1 : Int) <;>
      simp [hpg, Except.map, withTime]

theorem uc_withTime (c : Controller2D) (t : ℝ) :
    update_controls (withTime t c)
      = (update_controls c).map (withTime t) := by
  rw [update_controls, update_controls, uds_withTime]
  cases huds : update_desired_speed c with
  | error e => simp [Except.map]
  | ok c1 =>
      simp only [Except.map, withTime]
      by_cases hsc : c1._start_control_loop
      · simp only [hsc, if_true]
        cases hwp : lookaheadWaypoint (c1.vars.step.getD 0) c1._waypoints <;>
          simp [createVars, hwp, set_throttle, set_steer, set_brake,
            store_old_values]
      · simp [hsc, createVars, store_old_values]

theorem stepEvent_withTime (c : Controller2D) (t : ℝ) (g : ℝ → ℝ) (e : Event) :
    ∃ t', stepEvent (withTime t c) (retimeEvent g e)
      = withTime t' (stepEvent c e) := by
  cases e with
  | values x y yaw s ts f =>
      exact ⟨g ts, by simp [stepEvent, retimeEvent, update_values, withTime]⟩
  | waypoints w =>
      exact ⟨t, by simp [stepEvent, retimeEvent, update_waypoints, withTime]⟩
  | controls =>
      refine ⟨t, ?_⟩
      dsimp [stepEvent, retimeEvent]
      rw [uc_withTime]
      cases huc : update_controls c <;> simp [Except.map]

theorem runTrace_withTime (g : ℝ → ℝ) (es : List Event) :
    ∀ (c : Controller2D) (t : ℝ),
      runTrace (withTime t c) (es.map (retimeEvent g)) = runTrace c es := by
  induction es with
  | nil => intro c t; rfl
  | cons e es ih =>
      intro c t
      rw [List.map_cons]
      simp only [runTrace]
      have hgc : get_commands (withTime t c) = get_commands c := rfl
      rw [hgc]
      obtain ⟨t', hstep⟩ := stepEvent_withTime c t g e
      rw [hstep, ih _ t']

theorem update_controls_outputs {c c' : Controller2D}
    (h : update_controls c = .ok c') :
    (c'._set_throttle = c._set_throttle ∧ c'._set_brake = c._set_brake ∧
      c'._set_steer = c._set_steer) ∨
    (∃ a s, c'._set_throttle = max (min a 1) 0 ∧
      c'._set_brake = max (min (0 : ℝ) 1) 0 ∧
      c'._set_steer = max (min (_conv_rad_to_steer * s) 1) (-1)) := by
  cases huds : update_desired_speed c with
  | error e =>
      rw [update_controls_of_uds_error huds] at h
      exact absurd h (by simp)
  | ok c1 =>
      obtain ⟨d, rfl⟩ := update_desired_speed_shape huds
      cases hsc : c._start_control_loop with
      | false =>
          rw [update_controls_cold hsc huds] at h
          injection h with h
          subst h
          exact Or.inl ⟨rfl, rfl, rfl⟩
      | true =>
          cases hwp : lookaheadWaypoint (stepOf c)
              ({ c with _desired_speed := d })._waypoints with
          | error e =>
              rw [update_controls_warm_error hsc huds hwp] at h
              exact absurd h (by simp)
          | ok wp =>
              rw [update_controls_warm hsc huds hwp] at h
              injection h with h
              subst h
              exact Or.inr ⟨_, _, rfl, rfl, rfl⟩

theorem clamp01_range (x : ℝ) : 0 ≤ max (min x 1) 0 ∧ max (min x 1) 0 ≤ 1 :=
  ⟨le_max_right _ _, max_le (min_le_right _ _) zero_le_one⟩

theorem clamp11_range (x : ℝ) :
    -1 ≤ max (min x 1) (-1) ∧ max (min x 1) (-1) ≤ 1 :=
  ⟨le_max_right _ _, max_le (min_le_right _ _) (by norm_num)⟩

theorem reachable_inRange {c : Controller2D} (h : Reachable c) : inRange c := by
  induction h with
  | init wps =>
      refine ⟨le_refl 0, zero_le_one, le_refl 0, zero_le_one, ?_, zero_le_one⟩
      norm_num [mkController]
  | values x y yaw s t f _ ih => exact ih
  | waypoints wps _ ih => exact ih
  | controls _ huc ih =>
      rcases update_controls_outputs huc with ⟨h1, h2, h3⟩ | ⟨a, s, h1, h2, h3⟩
      · rw [inRange, h1, h2, h3]; exact ih
      · rw [inRange, h1, h2, h3]
        obtain ⟨t1, t2⟩ := clamp01_range a
        obtain ⟨b1, b2⟩ := clamp01_range 0
        obtain ⟨s1, s2⟩ := clamp11_range (_conv_rad_to_steer * s)
        exact ⟨t1, t2, b1, b2, s1, s2⟩

/-! ## Claim theorems -/

/-- C1: for every valid input, the stored commands satisfy
`throttle ∈ [0,1]`, `brake ∈ [0,1]`, `steer ∈ [-1,1]` after any reachable
sequence of API calls (in particular after any `update_controls`), the three
setters `set_throttle`/`set_brake`/`set_steer` always store in-range values,
and the three outputs default to zero at construction. -/
theorem claim_C1 :
    (∀ wps, get_commands (mkController wps) = (0, 0, 0)) ∧
    (∀ (c : Controller2D) (x : ℝ),
      0 ≤ (set_throttle c x)._set_throttle ∧ (set_throttle c x)._set_throttle ≤ 1) ∧
    (∀ (c : Controller2D) (x : ℝ),
      0 ≤ (set_brake c x)._set_brake ∧ (set_brake c x)._set_brake ≤ 1) ∧
    (∀ (c : Controller2D) (x : ℝ),
      -1 ≤ (set_steer c x)._set_steer ∧ (set_steer c x)._set_steer ≤ 1) ∧
    (∀ c : Controller2D, Reachable c →
      0 ≤ c._set_throttle ∧ c._set_throttle ≤ 1 ∧
      0 ≤ c._set_brake ∧ c._set_brake ≤ 1 ∧
      -1 ≤ c._set_steer ∧ c._set_steer ≤ 1) :=
  ⟨fun _ => rfl, fun _ x => clamp01_range x, fun _ x => clamp01_range x,
    fun _ x => clamp11_range (_conv_rad_to_steer * x),
    fun _ h => reachable_inRange h⟩

/-- Witness for C1 at the freshly constructed controller. -/
theorem claim_C1_witness :
    0 ≤ (mkController [])._set_throttle ∧ (mkController [])._set_throttle ≤ 1 ∧
    0 ≤ (mkController [])._set_brake ∧ (mkController [])._set_brake ≤ 1 ∧
    -1 ≤ (mkController [])._set_steer ∧ (mkController [])._set_steer ≤ 1 :=
  claim_C1.2.2.2.2 (mkController []) (Reachable.init [])

/-- C2 counterexample: with an empty waypoint list, `update_controls` raises
the list index-out-of-range error (`waypoints[-1]` in `update_desired_speed`),
not a distinct EmptyPath error — so the claim as stated is false of the
code. -/
theorem claim_C2_counterexample :
    update_controls (mkController []) = .error .indexError := rfl

/-- C2 (amended): when `update_controls` is invoked with an empty waypoint
list it fails fast — before any state mutation — by raising the
index-out-of-range error from `waypoints[-1]` in `update_desired_speed`, and
does not return a numeric result; no distinct EmptyPath error exists in the
code. -/
theorem claim_C2 :
    ∀ c : Controller2D, c._waypoints = [] →
      update_controls c = .error .indexError :=
  fun _ h => update_controls_of_uds_error (update_desired_speed_empty h)

/-- Witness for C2 (amended) at the freshly constructed empty-path
controller. -/
theorem claim_C2_witness :
    (mkController [])._waypoints = [] ∧
    update_controls (mkController []) = .error .indexError :=
  ⟨rfl, claim_C2 (mkController []) rfl⟩

/-- C3: while no `update_values` call has carried a non-zero frame index,
`get_commands` stays `(0,0,0)` no matter how many `update_controls` calls
occur; and a Cold-state `update_controls` call still recomputes the desired
speed and still advances the persistent state while leaving the three
outputs untouched. -/
theorem claim_C3 :
    (∀ (wps : List Waypoint) (es : List Event),
      (∀ e ∈ es, frameOf e = 0) →
      get_commands (runEvents wps es) = (0, 0, 0)) ∧
    (∀ c : Controller2D, c._start_control_loop = false →
      (update_controls c).map
          (fun c' => (get_commands c', c'._desired_speed, c'.vars))
        = (update_desired_speed c).map (fun c1 =>
            (get_commands c,
             c1._desired_speed,
             (⟨some c._current_speed,
               some (c1._desired_speed - c._current_speed
                 + c.vars.v_diff_previous.getD 0),
               some (stepOf c + 1)⟩ : CUtils)))) := by
  constructor
  · intro wps es hall
    exact (cold_run es (mkController wps) hall rfl).2
  · intro c hs
    cases huds : update_desired_speed c with
    | error e => rw [update_controls_of_uds_error huds]; rfl
    | ok c1 =>
        obtain ⟨d, rfl⟩ := update_desired_speed_shape huds
        rw [update_controls_cold hs huds]
        simp [Except.map, get_commands, store_old_values, createVars, stepOf]

/-- Witness for C3: one Cold `update_controls` call on an empty-path fresh
controller leaves the commands at zero. -/
theorem claim_C3_witness :
    (∀ e ∈ ([Event.controls] : List Event), frameOf e = 0) ∧
    get_commands (runEvents [] [Event.controls]) = (0, 0, 0) := by
  have hall : ∀ e ∈ ([Event.controls] : List Event), frameOf e = 0 := by
    intro e he
    rw [List.mem_singleton] at he
    subst he
    rfl
  exact ⟨hall, claim_C3.1 [] [Event.controls] hall⟩

/-- C4: in the Warm state the stored throttle equals
`clamp((0.6*(v_d - v) + 1*(v - previous_speed) + 0.01*accumulated_speed_error)
/ (16.25/2/5), [0,1])` — with the raw speed delta `v - previous_speed` — and
the stored brake is 0. -/
theorem claim_C4 :
    ∀ c : Controller2D, c._start_control_loop = true → c._waypoints ≠ [] →
      0 ≤ stepOf c →
      (update_controls c).map (fun c' => (c'._set_throttle, c'._set_brake))
        = (update_desired_speed c).map (fun c1 =>
            (max 0 (min ((0.6 * (c1._desired_speed - c._current_speed)
                + 1 * (c._current_speed - c.vars.v_previous.getD 0)
                + 0.01 * c.vars.v_diff_previous.getD 0) / (16.25 / 2 / 5)) 1),
             (0 : ℝ))) := by
  intro c hs hw hstep
  obtain ⟨d, huds⟩ := update_desired_speed_ok_of_ne hw
  have hwp := lookaheadWaypoint_eq
    ({ c with _desired_speed := d })._waypoints (stepOf c) hw hstep
  rw [update_controls_warm hs huds hwp, huds]
  simp only [Except.map, set_throttle, set_steer, set_brake, store_old_values]
  rw [longitudinalThrottle]
  simp only [ite_clamp01]
  norm_num

/-- Witness for C4 at a concrete Warm controller with a one-point path. -/
theorem claim_C4_witness :
    (update_values (mkController [(0, 0, 5)]) 0 0 0 0 0 1)._start_control_loop
        = true ∧
    (update_values (mkController [(0, 0, 5)]) 0 0 0 0 0 1)._waypoints ≠ [] ∧
    0 ≤ stepOf (update_values (mkController [(0, 0, 5)]) 0 0 0 0 0 1) ∧
    (update_controls (update_values (mkController [(0, 0, 5)]) 0 0 0 0 0 1)).map
        (fun c' => (c'._set_throttle, c'._set_brake))
      = (update_desired_speed
            (update_values (mkController [(0, 0, 5)]) 0 0 0 0 0 1)).map
          (fun c1 =>
            (max 0 (min ((0.6 * (c1._desired_speed
                - (update_values (mkController [(0, 0, 5)]) 0 0 0 0 0 1)._current_speed)
                + 1 * ((update_values (mkController [(0, 0, 5)]) 0 0 0 0 0 1)._current_speed
                  - (update_values (mkController [(0, 0, 5)]) 0 0 0 0 0 1).vars.v_previous.getD 0)
                + 0.01 * (update_values
                    (mkController [(0, 0, 5)]) 0 0 0 0 0 1).vars.v_diff_previous.getD 0)
                / (16.25 / 2 / 5)) 1),
             (0 : ℝ))) :=
  ⟨rfl, by simp [update_values, mkController], by decide,
    claim_C4 _ rfl (by simp [update_values, mkController]) (by decide)⟩

/-- C5: in the Warm state the radians value handed to `set_steer` (hence the
stored steer, after the `180/70/π` conversion and the final `[-1,1]` clamp)
equals exactly the claimed pure-pursuit pipeline `steer_angle_spec`,
evaluated at the chosen lookahead waypoint. -/
theorem claim_C5 :
    ∀ c : Controller2D, c._start_control_loop = true → c._waypoints ≠ [] →
      0 ≤ stepOf c →
      (update_controls c).map (fun c' => c'._set_steer)
        = (update_desired_speed c).bind (fun c1 =>
            (lookaheadWaypoint (stepOf c) c1._waypoints).map (fun wp =>
              max (min (_conv_rad_to_steer
                * steer_angle_spec c._current_x c._current_y c._current_yaw
                    c1._desired_speed wp.1 wp.2.1 (stepOf c)) 1) (-1))) := by
  intro c hs hw hstep
  obtain ⟨d, huds⟩ := update_desired_speed_ok_of_ne hw
  have hwp := lookaheadWaypoint_eq
    ({ c with _desired_speed := d })._waypoints (stepOf c) hw hstep
  rw [update_controls_warm hs huds hwp, huds]
  simp only [Except.map, Except.bind, set_throttle, set_steer, set_brake,
    store_old_values]
  rw [hwp]
  simp [lateral_eq_spec]

/-- Witness for C5 at a concrete Warm controller with a one-point path. -/
theorem claim_C5_witness :
    (update_values (mkController [(0, 0, 5)]) 0 0 0 0 0 1)._start_control_loop
        = true ∧
    (update_values (mkController [(0, 0, 5)]) 0 0 0 0 0 1)._waypoints ≠ [] ∧
    0 ≤ stepOf (update_values (mkController [(0, 0, 5)]) 0 0 0 0 0 1) ∧
    (update_controls (update_values (mkController [(0, 0, 5)]) 0 0 0 0 0 1)).map
        (fun c' => c'._set_steer)
      = (update_desired_speed
            (update_values (mkController [(0, 0, 5)]) 0 0 0 0 0 1)).bind
          (fun c1 =>
            (lookaheadWaypoint
                (stepOf (update_values (mkController [(0, 0, 5)]) 0 0 0 0 0 1))
                c1._waypoints).map (fun wp =>
              max (min (_conv_rad_to_steer
                * steer_angle_spec
                    (update_values (mkController [(0, 0, 5)]) 0 0 0 0 0 1)._current_x
                    (update_values (mkController [(0, 0, 5)]) 0 0 0 0 0 1)._current_y
                    (update_values (mkController [(0, 0, 5)]) 0 0 0 0 0 1)._current_yaw
                    c1._desired_speed wp.1 wp.2.1
                    (stepOf (update_values (mkController [(0, 0, 5)]) 0 0 0 0 0 1)))
                1) (-1))) :=
  ⟨rfl, by simp [update_values, mkController], by decide,
    claim_C5 _ rfl (by simp [update_values, mkController]) (by decide)⟩

/-- C6: for every non-empty path, the desired speed computed by
`update_desired_speed` is the target speed of the waypoint at minimum
Euclidean distance from the current position, the first such index winning
ties (strictly smaller distance than every earlier index, no larger than
every other index); the last-index case yields the last waypoint's target
speed, the same value. -/
theorem claim_C6 :
    ∀ c : Controller2D, c._waypoints ≠ [] →
      ∃ m, ∃ hm : m < c._waypoints.length,
        (∀ j (hj : j < c._waypoints.length),
          dist_to c._current_x c._current_y (c._waypoints.get ⟨m, hm⟩)
            ≤ dist_to c._current_x c._current_y (c._waypoints.get ⟨j, hj⟩)) ∧
        (∀ j (hj : j < m),
          dist_to c._current_x c._current_y (c._waypoints.get ⟨m, hm⟩)
            < dist_to c._current_x c._current_y
                (c._waypoints.get ⟨j, Nat.lt_trans hj hm⟩)) ∧
        (update_desired_speed c).map (fun c1 => c1._desired_speed)
          = .ok ((c._waypoints.get ⟨m, hm⟩).2.2) := by
  intro c h
  obtain ⟨m, hm, hle, hlt, huds⟩ := update_desired_speed_nearest h
  refine ⟨m, hm, hle, hlt, ?_⟩
  rw [huds]
  rfl

/-- Witness for C6 at a concrete position and one-point path. -/
theorem claim_C6_witness :
    (mkController [(0, 0, 5)])._waypoints ≠ [] ∧
    (∃ m, ∃ hm : m < (mkController [(0, 0, 5)])._waypoints.length,
      (∀ j (hj : j < (mkController [(0, 0, 5)])._waypoints.length),
        dist_to (mkController [(0, 0, 5)])._current_x
            (mkController [(0, 0, 5)])._current_y
            ((mkController [(0, 0, 5)])._waypoints.get ⟨m, hm⟩)
          ≤ dist_to (mkController [(0, 0, 5)])._current_x
              (mkController [(0, 0, 5)])._current_y
              ((mkController [(0, 0, 5)])._waypoints.get ⟨j, hj⟩)) ∧
      (∀ j (hj : j < m),
        dist_to (mkController [(0, 0, 5)])._current_x
            (mkController [(0, 0, 5)])._current_y
            ((mkController [(0, 0, 5)])._waypoints.get ⟨m, hm⟩)
          < dist_to (mkController [(0, 0, 5)])._current_x
              (mkController [(0, 0, 5)])._current_y
              ((mkController [(0, 0, 5)])._waypoints.get
                ⟨j, Nat.lt_trans hj hm⟩)) ∧
      (update_desired_speed (mkController [(0, 0, 5)])).map
          (fun c1 => c1._desired_speed)
        = .ok (((mkController [(0, 0, 5)])._waypoints.get ⟨m, hm⟩).2.2)) :=
  ⟨by simp [mkController], claim_C6 _ (by simp [mkController])⟩

/-- C7: for a non-empty path and a non-negative step counter, the lookahead
waypoint is the one at index `min (floor (step/3)) (len - 1)`. -/
theorem claim_C7 :
    ∀ (wps : List Waypoint) (step : Int) (h1 : wps ≠ []), 0 ≤ step →
      lookaheadWaypoint step wps
        = .ok (wps.get ⟨min (step.toNat / 3) (wps.length - 1),
            Nat.lt_of_le_of_lt (Nat.min_le_right _ _)
              (Nat.sub_lt (List.length_pos.mpr h1) Nat.one_pos)⟩) :=
  fun wps step h1 h2 => lookaheadWaypoint_eq wps step h1 h2

/-- Witness for C7: step 7 on a two-point path selects
`min (7/3) 1 = 1`. -/
theorem claim_C7_witness :
    ([((0 : ℝ), (0 : ℝ), (5 : ℝ)), ((1 : ℝ), (0 : ℝ), (7 : ℝ))]
        : List Waypoint) ≠ [] ∧
    (0 : Int) ≤ 7 ∧
    lookaheadWaypoint 7
        [((0 : ℝ), (0 : ℝ), (5 : ℝ)), ((1 : ℝ), (0 : ℝ), (7 : ℝ))]
      = .ok ([((0 : ℝ), (0 : ℝ), (5 : ℝ)),
          ((1 : ℝ), (0 : ℝ), (7 : ℝ))].get
            ⟨min ((7 : Int).toNat / 3)
              ([((0 : ℝ), (0 : ℝ), (5 : ℝ)),
                ((1 : ℝ), (0 : ℝ), (7 : ℝ))].length - 1),
              Nat.lt_of_le_of_lt (Nat.min_le_right _ _)
                (Nat.sub_lt (List.length_pos.mpr (by simp)) Nat.one_pos)⟩) :=
  ⟨by simp, by norm_num, claim_C7 _ 7 (by simp) (by norm_num)⟩

/-- C8: `create_var` never resets an existing persistent value; every
successful `update_controls` call (Cold or Warm, given the spec's non-empty
path operating condition and a non-negative step) ends by setting
`v_previous ← v`, `v_diff_previous ← v_diff_previous + (v_d - v)` (no reset
or clamp) and `step ← step + 1`; and after `n` `update_controls` calls on a
fresh controller the step counter equals `n`. -/
theorem claim_C8 :
    (∀ (u : CUtils) (r : ℝ),
      u.v_previous = some r → (createVars u).v_previous = some r) ∧
    (∀ (u : CUtils) (r : ℝ),
      u.v_diff_previous = some r → (createVars u).v_diff_previous = some r) ∧
    (∀ (u : CUtils) (n : Int),
      u.step = some n → (createVars u).step = some n) ∧
    (∀ c : Controller2D, c._waypoints ≠ [] → 0 ≤ stepOf c →
      (update_controls c).map (fun c' => c'.vars)
        = (update_desired_speed c).map (fun c1 =>
            (⟨some c._current_speed,
              some (c1._desired_speed - c._current_speed
                + c.vars.v_diff_previous.getD 0),
              some (stepOf c + 1)⟩ : CUtils))) ∧
    (∀ (wps : List Waypoint) (n : Nat), wps ≠ [] →
      stepOf (runEvents wps (List.replicate n .controls)) = n) := by
  refine ⟨?_, ?_, ?_, ?_, ?_⟩
  · intro u r h; simp [createVars, h]
  · intro u r h; simp [createVars, h]
  · intro u n h; simp [createVars, h]
  · intro c hw hstep
    obtain ⟨d, huds⟩ := update_desired_speed_ok_of_ne hw
    cases hsc : c._start_control_loop with
    | false =>
        rw [update_controls_cold hsc huds, huds]
        simp [Except.map, store_old_values, createVars, stepOf]
    | true =>
        have hwp := lookaheadWaypoint_eq
          ({ c with _desired_speed := d })._waypoints (stepOf c) hw hstep
        rw [update_controls_warm hsc huds hwp, huds]
        simp [Except.map, store_old_values, createVars, stepOf,
          set_throttle, set_steer, set_brake]
  · intro wps n hw
    show stepOf (List.foldl stepEvent (mkController wps)
      (List.replicate n .controls)) = n
    rw [cold_controls_count n (mkController wps) rfl hw]
    simp [stepOf, mkController]

/-- Witness for C8: `create_var` keeps an existing value, and two
`update_controls` calls on a fresh one-point-path controller leave
`step = 2`. -/
theorem claim_C8_witness :
    ((⟨some 1, none, none⟩ : CUtils).v_previous = some 1) ∧
    ((createVars ⟨some 1, none, none⟩).v_previous = some 1) ∧
    (([((0 : ℝ), (0 : ℝ), (5 : ℝ))] : List Waypoint) ≠ []) ∧
    stepOf (runEvents [((0 : ℝ), (0 : ℝ), (5 : ℝ))]
      (List.replicate 2 .controls)) = 2 :=
  ⟨rfl, claim_C8.1 _ 1 rfl, by simp,
    claim_C8.2.2.2.2 [((0 : ℝ), (0 : ℝ), (5 : ℝ))] 2 (by simp)⟩

/-- C9: the controller is deterministic — in this embedding every operation
is a pure function of the controller state and the call arguments, so a
replayed event sequence yields the identical `runTrace` output sequence by
construction — and the passed-in timestamp influences no computed output:
retiming every `update_values` event arbitrarily leaves the entire
`get_commands` trace unchanged. -/
theorem claim_C9 :
    ∀ (wps : List Waypoint) (es : List Event) (g : ℝ → ℝ),
      runTrace (mkController wps) (es.map (retimeEvent g))
        = runTrace (mkController wps) es := by
  intro wps es g
  exact runTrace_withTime g es (mkController wps) 0

/-- C10: in the Warm state the stored steering command has magnitude at most
`0.3 * (180/70/π)`, which is strictly below 1, so the `[-1,1]` clamp inside
`set_steer` is never the binding constraint. -/
theorem claim_C10 :
    0.3 * _conv_rad_to_steer < 1 ∧
    ∀ c : Controller2D, c._start_control_loop = true →
      ExceptOkP (fun c' => |c'._set_steer| ≤ 0.3 * _conv_rad_to_steer)
        (update_controls c) := by
  have hπ : (3 : ℝ) < Real.pi := Real.pi_gt_three
  have hconv_pos : 0 < _conv_rad_to_steer := by
    rw [_conv_rad_to_steer]
    positivity
  have hbound : 0.3 * _conv_rad_to_steer < 1 := by
    rw [_conv_rad_to_steer, div_div, ← mul_div_assoc, div_lt_one (by positivity)]
    nlinarith
  refine ⟨hbound, ?_⟩
  intro c hsc
  cases huds : update_desired_speed c with
  | error e =>
      rw [update_controls_of_uds_error huds]
      exact trivial
  | ok c1 =>
      obtain ⟨d, rfl⟩ := update_desired_speed_shape huds
      cases hwp : lookaheadWaypoint (stepOf c)
          ({ c with _desired_speed := d })._waypoints with
      | error e =>
          rw [update_controls_warm_error hsc huds hwp]
          exact trivial
      | ok wp =>
          rw [update_controls_warm hsc huds hwp]
          have hs3 := lateral_bounded c._current_x c._current_y c._current_yaw
            d wp (stepOf c)
          show |max (min (_conv_rad_to_steer
            * lateralSteerOutput c._current_x c._current_y c._current_yaw d wp
              (stepOf c)) 1) (-1)| ≤ 0.3 * _conv_rad_to_steer
          set s := lateralSteerOutput c._current_x c._current_y c._current_yaw
            d wp (stepOf c) with hs_def
          have habs : |_conv_rad_to_steer * s| ≤ 0.3 * _conv_rad_to_steer := by
            rw [abs_mul, abs_of_pos hconv_pos, mul_comm]
            exact mul_le_mul_of_nonneg_right hs3 (le_of_lt hconv_pos)
          have hpair := abs_le.mp habs
          have hle1 : min (_conv_rad_to_steer * s) 1 = _conv_rad_to_steer * s :=
            min_eq_left (by linarith)
          have hgem1 : max (_conv_rad_to_steer * s) (-1)
              = _conv_rad_to_steer * s :=
            max_eq_left (by linarith)
          rw [hle1, hgem1]
          exact habs

/-- Witness for C10 at a concrete Warm controller with a one-point path. -/
theorem claim_C10_witness :
    (update_values (mkController [(0, 0, 5)]) 0 0 0 0 0 1)._start_control_loop
        = true ∧
    ExceptOkP (fun c' => |c'._set_steer| ≤ 0.3 * _conv_rad_to_steer)
      (update_controls (update_values (mkController [(0, 0, 5)]) 0 0 0 0 0 1)) :=
  ⟨rfl, claim_C10.2 _ rfl⟩
